import Mathlib

/-!
Verification of the Steamworks callback bridge
(`steamworks-sys/src/lib.cpp` and `steamworks-sys/wrapper.hpp`).

The bridge is embedded shallowly as a state machine. Native payloads and
caller-supplied function pointers are identified by their addresses
(natural numbers, with `0` standing for the null pointer). The native
dispatch mechanism is a list of manual registrations, each tagged with the
event kind it services and the address of the owning `CallbackManager`
object. The heap of live `CallbackManager` objects is an association list
keyed by address, allocated by a bump allocator (so `new` never returns
null and addresses are never reused within one run). Calling through a
caller-supplied function pointer is recorded as an `Invocation` in a trace.
-/

/-- Address of a native payload record; events are delivered by pointer. -/
abbrev Ptr := Nat

/-- A caller-supplied function pointer, identified by its address. -/
abbrev FnPtr := Nat

/-- The two native event kinds the bridge subscribes to:
`PersonaStateChange_t` and `SteamShutdown_t`. -/
inductive EventKind where
  | personaStateChange
  | steamShutdown
deriving DecidableEq, Repr

/-- The `SteamRustCallbacks` table from `wrapper.hpp`: one caller-supplied
function pointer per supported event kind. -/
structure SteamRustCallbacks where
  onPersonaStateChanged : FnPtr
  onSteamShutdown : FnPtr
deriving DecidableEq, Repr

/-- The bridge object from `wrapper.hpp`: it owns one callback table by
value (the `callbacks` field, copied in by the constructor). -/
structure CallbackManager where
  callbacks : SteamRustCallbacks
deriving DecidableEq, Repr

/-- One manual registration held by the native dispatch mechanism: the
address of the owning `CallbackManager` object and the event kind the
registration is tagged with. These correspond to the two
`STEAM_CALLBACK_MANUAL` members of `CallbackManager`. -/
structure Reg where
  owner : Ptr
  kind : EventKind
deriving DecidableEq, Repr

/-- A single call through a caller-supplied function pointer: which
pointer was called and the payload address passed to it. -/
structure Invocation where
  fn : FnPtr
  payload : Ptr
deriving DecidableEq, Repr

/-- Body of `CallbackManager::OnPersonaStateChange`: the single statement
`this->callbacks.onPersonaStateChanged(pCallback)`, i.e. one call through
the stored pointer, passing the payload pointer along. -/
def CallbackManager.OnPersonaStateChange (self : CallbackManager) (pCallback : Ptr) :
    List Invocation :=
  [⟨self.callbacks.onPersonaStateChanged, pCallback⟩]

/-- Body of `CallbackManager::OnSteamShutdown`: the single statement
`this->callbacks.onSteamShutdown(pCallback)`. -/
def CallbackManager.OnSteamShutdown (self : CallbackManager) (pCallback : Ptr) :
    List Invocation :=
  [⟨self.callbacks.onSteamShutdown, pCallback⟩]

/-- The whole-system state: the bump allocator's next fresh address, the
heap of live `CallbackManager` objects keyed by address, and the native
dispatch mechanism's list of manual registrations. -/
structure SysState where
  nextAddr : Ptr
  heap : List (Ptr × CallbackManager)
  regs : List Reg
deriving DecidableEq, Repr

/-- The state before any bridge exists: nothing allocated, nothing
registered; the first address `new` will hand out is 1 (never null). -/
def SysState.init : SysState := ⟨1, [], []⟩

/-- Reading the `CallbackManager` object at an address, if one is live. -/
def SysState.deref (s : SysState) (a : Ptr) : Option CallbackManager :=
  (s.heap.find? fun x => x.1 == a).map Prod.snd

/-- One `CCallbackManual::Register` call: the native dispatch mechanism
appends the new registration to its list. -/
def registerWith (r : Reg) (s : SysState) : SysState :=
  { s with regs := s.regs ++ [r] }

/-- One `CCallbackManual::Unregister` call: the native dispatch mechanism
drops this object's registration from its list. -/
def unregisterWith (r : Reg) (s : SysState) : SysState :=
  { s with regs := s.regs.erase r }

/-- Body of the constructor `CallbackManager::CallbackManager` run for the
object at address `a`: registers `OnPersonaStateChange` and then
`OnSteamShutdown` with the native dispatch mechanism. -/
def constructAt (a : Ptr) (s : SysState) : SysState :=
  registerWith ⟨a, .steamShutdown⟩ (registerWith ⟨a, .personaStateChange⟩ s)

/-- Body of the destructor `CallbackManager::~CallbackManager` for the
object at address `a`: unregisters both manual registrations. -/
def destructAt (a : Ptr) (s : SysState) : SysState :=
  unregisterWith ⟨a, .steamShutdown⟩ (unregisterWith ⟨a, .personaStateChange⟩ s)

/-- Releasing the memory of the object at address `a`. -/
def freeAt (a : Ptr) (s : SysState) : SysState :=
  { s with heap := s.heap.filter fun x => x.1 != a }

/-- `steam_rust_register_callbacks`: `new CallbackManager(callbacks)` —
allocate a fresh object holding a by-value copy of the table, run the
constructor on it, and return its (non-null) address. -/
def steam_rust_register_callbacks (callbacks : SteamRustCallbacks) (s : SysState) :
    Ptr × SysState :=
  let a := s.nextAddr
  let s1 : SysState := ⟨s.nextAddr + 1, s.heap ++ [(a, ⟨callbacks⟩)], s.regs⟩
  (a, constructAt a s1)

/-- `steam_rust_unregister_callbacks`: `delete manager` — on a null
pointer this is a no-op; otherwise the destructor runs first and only then
is the memory released. -/
def steam_rust_unregister_callbacks (manager : Ptr) (s : SysState) : SysState :=
  if manager = 0 then s else freeAt manager (destructAt manager s)

/-- The member handler that a registration of the given kind dispatches
to, as wired up by the constructor's two `Register` calls. -/
def dispatchTo (k : EventKind) (m : CallbackManager) (p : Ptr) : List Invocation :=
  match k with
  | .personaStateChange => m.OnPersonaStateChange p
  | .steamShutdown => m.OnSteamShutdown p

/-- Native event delivery: when an event of kind `k` fires with payload
pointer `p`, the native dispatch mechanism walks its registration list in
order and, for each registration tagged `k`, calls the registered member
handler on the owning object, passing the payload pointer through. The
result pairs each emitted invocation with the owning bridge's address. -/
def deliverEvent (k : EventKind) (p : Ptr) (s : SysState) : List (Ptr × Invocation) :=
  s.regs.flatMap fun r =>
    if r.kind = k then
      match s.deref r.owner with
      | some m => (dispatchTo k m p).map fun inv => (r.owner, inv)
      | none => []
    else []

/-- The operations the outside world can perform against the bridge:
construct one, destroy one, or have the native layer deliver an event. -/
inductive Op where
  | construct (cb : SteamRustCallbacks)
  | destroy (a : Ptr)
  | deliver (k : EventKind) (p : Ptr)
deriving Repr

/-- One operation: constructing and destroying update the state and emit
no calls; event delivery leaves the state alone and emits the calls the
handlers make. -/
def step (o : Op) (s : SysState) : SysState × List (Ptr × Invocation) :=
  match o with
  | .construct cb => ((steam_rust_register_callbacks cb s).2, [])
  | .destroy a => (steam_rust_unregister_callbacks a s, [])
  | .deliver k p => (s, deliverEvent k p s)

/-- Running a sequence of operations, accumulating the call trace. -/
def run (ops : List Op) (s : SysState) : SysState × List (Ptr × Invocation) :=
  match ops with
  | [] => (s, [])
  | o :: rest =>
    ((run rest (step o s).1).1, (step o s).2 ++ (run rest (step o s).1).2)

/-- The slot of the callback table that services a given event kind. -/
def slotFor (cb : SteamRustCallbacks) : EventKind → FnPtr
  | .personaStateChange => cb.onPersonaStateChanged
  | .steamShutdown => cb.onSteamShutdown

/-- The other event kind. -/
def EventKind.other : EventKind → EventKind
  | .personaStateChange => .steamShutdown
  | .steamShutdown => .personaStateChange

/-- The bridge at address `a` is in the Registered state: both of its
manual registrations are held by the native dispatch mechanism. -/
def bridgeRegistered (s : SysState) (a : Ptr) : Prop :=
  Reg.mk a .personaStateChange ∈ s.regs ∧ Reg.mk a .steamShutdown ∈ s.regs

/-- The bridge at address `a` is in the Unregistered state: neither of its
manual registrations is held by the native dispatch mechanism. -/
def bridgeUnregistered (s : SysState) (a : Ptr) : Prop :=
  Reg.mk a .personaStateChange ∉ s.regs ∧ Reg.mk a .steamShutdown ∉ s.regs

/-- Well-formedness of a system state: the allocator has moved past the
null address and past every live address and registration owner, no
registration is duplicated, and registrations come in complete pairs (a
bridge is never partially registered). All reachable states satisfy this. -/
def SysState.good (s : SysState) : Prop :=
  0 < s.nextAddr ∧
  s.regs.Nodup ∧
  (∀ r ∈ s.regs, 0 < r.owner ∧ r.owner < s.nextAddr) ∧
  (∀ x ∈ s.heap, 0 < x.1 ∧ x.1 < s.nextAddr) ∧
  (∀ r ∈ s.regs,
    Reg.mk r.owner .personaStateChange ∈ s.regs ∧ Reg.mk r.owner .steamShutdown ∈ s.regs)

/-- The states reachable from the empty initial state by any sequence of
constructs, destroys and event deliveries. -/
inductive Reachable : SysState → Prop
  | init : Reachable SysState.init
  | next (o : Op) {s : SysState} : Reachable s → Reachable (step o s).1

/-- One construct/destroy round trip: build a bridge from a table, then
immediately destroy it through the handle construction returned. -/
def constructDestroy (cb : SteamRustCallbacks) (s : SysState) : SysState :=
  steam_rust_unregister_callbacks (steam_rust_register_callbacks cb s).1
    (steam_rust_register_callbacks cb s).2

/-- A sequence of construct/destroy round trips, one bridge per table,
each destroy matching its own construct. -/
def constructDestroySeq : List SteamRustCallbacks → SysState → SysState
  | [], s => s
  | cb :: rest, s => constructDestroySeq rest (constructDestroy cb s)

/-- A batch of native event deliveries, as an operation sequence. -/
def deliveries (evs : List (EventKind × Ptr)) : List Op :=
  evs.map fun e => Op.deliver e.1 e.2

lemma construct_fst (cb : SteamRustCallbacks) (s : SysState) :
    (steam_rust_register_callbacks cb s).1 = s.nextAddr := rfl

lemma construct_regs (cb : SteamRustCallbacks) (s : SysState) :
    ((steam_rust_register_callbacks cb s).2).regs
      = s.regs ++ [Reg.mk s.nextAddr .personaStateChange,
                   Reg.mk s.nextAddr .steamShutdown] := by
  simp [steam_rust_register_callbacks, constructAt, registerWith]

lemma construct_heap (cb : SteamRustCallbacks) (s : SysState) :
    ((steam_rust_register_callbacks cb s).2).heap
      = s.heap ++ [(s.nextAddr, ⟨cb⟩)] := rfl

lemma construct_nextAddr (cb : SteamRustCallbacks) (s : SysState) :
    ((steam_rust_register_callbacks cb s).2).nextAddr = s.nextAddr + 1 := rfl

lemma destroy_after_construct (cb : SteamRustCallbacks) (s : SysState)
    (hpos : 0 < s.nextAddr)
    (hregs : ∀ r ∈ s.regs, r.owner ≠ s.nextAddr)
    (hheap : ∀ x ∈ s.heap, x.1 ≠ s.nextAddr) :
    constructDestroy cb s = ⟨s.nextAddr + 1, s.heap, s.regs⟩ := by
  have hne : s.nextAddr ≠ 0 := Nat.pos_iff_ne_zero.mp hpos
  rw [constructDestroy, construct_fst, steam_rust_unregister_callbacks, if_neg hne]
  have h1 : Reg.mk s.nextAddr .personaStateChange ∉ s.regs := fun hmem =>
    hregs _ hmem rfl
  have h2 : Reg.mk s.nextAddr .steamShutdown ∉ s.regs := fun hmem =>
    hregs _ hmem rfl
  have hr : (destructAt s.nextAddr (steam_rust_register_callbacks cb s).2).regs
      = s.regs := by
    rw [destructAt, unregisterWith, unregisterWith, construct_regs,
      List.erase_append_right _ h1, List.erase_append_right _ h2]
    simp
  have hh : (destructAt s.nextAddr (steam_rust_register_callbacks cb s).2).heap
      = s.heap ++ [(s.nextAddr, ⟨cb⟩)] := construct_heap cb s
  have hn : (destructAt s.nextAddr (steam_rust_register_callbacks cb s).2).nextAddr
      = s.nextAddr + 1 := construct_nextAddr cb s
  have hfilter : (s.heap ++ [(s.nextAddr, (⟨cb⟩ : CallbackManager))]).filter
      (fun x => x.1 != s.nextAddr) = s.heap := by
    rw [List.filter_append]
    have hself : (s.heap.filter fun x => x.1 != s.nextAddr) = s.heap :=
      List.filter_eq_self.mpr fun x hx => bne_iff_ne.mpr (hheap x hx)
    simp [hself]
  rw [freeAt, hr, hh, hn, hfilter]

lemma run_deliveries_eq (evs : List (EventKind × Ptr)) (s : SysState) :
    run (deliveries evs) s = (s, evs.flatMap fun e => deliverEvent e.1 e.2 s) := by
  induction evs with
  | nil => rfl
  | cons e rest ih =>
    have hcons : deliveries (e :: rest) = Op.deliver e.1 e.2 :: deliveries rest := rfl
    rw [hcons]
    simp only [run, step, List.flatMap_cons]
    simp [ih]

lemma deliverEvent_owner (k : EventKind) (p : Ptr) (s : SysState) :
    ∀ x ∈ deliverEvent k p s, ∃ r ∈ s.regs, x.1 = r.owner := by
  intro x hx
  simp only [deliverEvent, List.mem_flatMap] at hx
  obtain ⟨r, hr, hx⟩ := hx
  refine ⟨r, hr, ?_⟩
  split at hx
  · split at hx
    · simp only [List.mem_map] at hx
      obtain ⟨inv, _, hinv⟩ := hx
      rw [← hinv]
    · simp at hx
  · simp at hx

/-- C9: `steam_rust_unregister_callbacks` on a null handle is a well-defined
no-op: `delete nullptr` runs no destructor and frees nothing, so the whole
system state — in particular the native registration list — is unchanged. -/
theorem unregister_null_is_noop (s : SysState) :
    steam_rust_unregister_callbacks 0 s = s := rfl

/-- C2: constructing a bridge appends exactly two registrations to the
native dispatch mechanism's list — one tagged with each supported event
kind, both owned by the new bridge — and adds or removes no others. -/
theorem construct_registers_exactly_two (cb : SteamRustCallbacks) (s : SysState) :
    ((steam_rust_register_callbacks cb s).2).regs
      = s.regs ++ [Reg.mk (steam_rust_register_callbacks cb s).1 .personaStateChange,
                   Reg.mk (steam_rust_register_callbacks cb s).1 .steamShutdown] := by
  simp [steam_rust_register_callbacks, constructAt, registerWith]

/-- C1: from a freshly constructed bridge, delivering one native event of
either kind produces exactly one call, through exactly the table slot for
that kind, with the payload passed through unmodified; when the two slots
are distinct pointers, the slot for the other kind is never called. -/
theorem fresh_bridge_forwards_each_kind (cb : SteamRustCallbacks) (p : Ptr) (k : EventKind)
    (hne : slotFor cb (EventKind.other k) ≠ slotFor cb k) :
    deliverEvent k p (steam_rust_register_callbacks cb SysState.init).2
      = [((steam_rust_register_callbacks cb SysState.init).1, ⟨slotFor cb k, p⟩)] ∧
    (deliverEvent k p (steam_rust_register_callbacks cb SysState.init).2).filter
      (fun x => x.2.fn == slotFor cb (EventKind.other k)) = [] := by
  have h1 : deliverEvent k p (steam_rust_register_callbacks cb SysState.init).2
      = [((steam_rust_register_callbacks cb SysState.init).1, ⟨slotFor cb k, p⟩)] := by
    cases k <;> rfl
  refine ⟨h1, ?_⟩
  rw [h1]
  have h2 : (slotFor cb k == slotFor cb (EventKind.other k)) = false :=
    beq_eq_false_iff_ne.mpr fun h => hne h.symm
  simp [List.filter, h2]

/-- Witness for C1 at a concrete table and payload. -/
theorem fresh_bridge_forwards_each_kind_witness :
    deliverEvent .personaStateChange 5 (steam_rust_register_callbacks ⟨10, 20⟩ SysState.init).2
      = [((steam_rust_register_callbacks ⟨10, 20⟩ SysState.init).1, ⟨10, 5⟩)] ∧
    (deliverEvent .personaStateChange 5
      (steam_rust_register_callbacks ⟨10, 20⟩ SysState.init).2).filter
      (fun x => x.2.fn == 20) = [] :=
  fresh_bridge_forwards_each_kind ⟨10, 20⟩ 5 .personaStateChange (by decide)

/-- C10: event forwarding preserves pointer identity — every call made by
any bridge while delivering a native event passes the exact payload
address the native layer supplied, in every system state. -/
theorem payload_pointer_preserved (k : EventKind) (p : Ptr) (s : SysState) :
    ∀ x ∈ deliverEvent k p s, x.2.payload = p := by
  intro x hx
  simp only [deliverEvent, List.mem_flatMap] at hx
  obtain ⟨r, hr, hx⟩ := hx
  split at hx
  · split at hx
    · cases k <;>
        simp_all [dispatchTo, CallbackManager.OnPersonaStateChange,
          CallbackManager.OnSteamShutdown]
    · simp at hx
  · simp at hx

/-- Witness for C10 at a concrete state, event and invocation. -/
theorem payload_pointer_preserved_witness :
    ((1, Invocation.mk 10 5) : Ptr × Invocation).2.payload = 5 :=
  payload_pointer_preserved .personaStateChange 5
    (steam_rust_register_callbacks ⟨10, 20⟩ SysState.init).2 (1, ⟨10, 5⟩) (by decide)

/-- C8: `steam_rust_register_callbacks` never hands back a null bridge
handle: the address `new` returns is never 0. -/
theorem construct_returns_nonnull (cb : SteamRustCallbacks) (s : SysState)
    (h : 0 < s.nextAddr) :
    (steam_rust_register_callbacks cb s).1 ≠ 0 := by
  simp only [steam_rust_register_callbacks]
  exact Nat.pos_iff_ne_zero.mp h

/-- Witness for C8 at the initial state. -/
theorem construct_returns_nonnull_witness :
    (steam_rust_register_callbacks ⟨10, 20⟩ SysState.init).1 ≠ 0 :=
  construct_returns_nonnull ⟨10, 20⟩ SysState.init (by decide)

/-- C7: whenever construction returns, it returns a live bridge with all
N = 2 handlers registered — there is no execution of the constructor that
returns with fewer than both registrations in place, and the returned
handle dereferences to a bridge holding the supplied table. -/
theorem construct_no_partial (cb : SteamRustCallbacks) (s : SysState)
    (hfresh : ∀ x ∈ s.heap, x.1 ≠ s.nextAddr) :
    bridgeRegistered (steam_rust_register_callbacks cb s).2
      (steam_rust_register_callbacks cb s).1 ∧
    (steam_rust_register_callbacks cb s).2.deref (steam_rust_register_callbacks cb s).1
      = some ⟨cb⟩ := by
  constructor
  · constructor <;>
      simp [steam_rust_register_callbacks, constructAt, registerWith, bridgeRegistered]
  · simp only [steam_rust_register_callbacks, constructAt, registerWith, SysState.deref]
    rw [List.find?_append]
    have hnone : s.heap.find? (fun x => x.1 == s.nextAddr) = none := by
      rw [List.find?_eq_none]
      intro x hx
      simpa using hfresh x hx
    simp [hnone]

/-- Witness for C7 at the initial state. -/
theorem construct_no_partial_witness :
    bridgeRegistered (steam_rust_register_callbacks ⟨10, 20⟩ SysState.init).2
      (steam_rust_register_callbacks ⟨10, 20⟩ SysState.init).1 ∧
    (steam_rust_register_callbacks ⟨10, 20⟩ SysState.init).2.deref
      (steam_rust_register_callbacks ⟨10, 20⟩ SysState.init).1 = some ⟨⟨10, 20⟩⟩ :=
  construct_no_partial ⟨10, 20⟩ SysState.init (by decide)

lemma good_init : SysState.init.good :=
  ⟨Nat.one_pos, List.nodup_nil, by simp [SysState.init], by simp [SysState.init],
    by simp [SysState.init]⟩

/-- C3: destroying a bridge through its handle removes both of its
registrations from the native dispatch mechanism (restoring the
registration list exactly), releases its memory (the handle no longer
dereferences), and for any batch of native events delivered afterward, no
invocation attributable to that bridge ever occurs again. -/
theorem destroy_unregisters_and_silences (cb : SteamRustCallbacks) (s : SysState)
    (evs : List (EventKind × Ptr)) (hg : s.good) :
    (constructDestroy cb s).regs = s.regs ∧
    (constructDestroy cb s).deref (steam_rust_register_callbacks cb s).1 = none ∧
    (run (deliveries evs) (constructDestroy cb s)).2.filter
      (fun x => x.1 == (steam_rust_register_callbacks cb s).1) = [] := by
  obtain ⟨h1, h2, h3, h4, h5⟩ := hg
  have hregs : ∀ r ∈ s.regs, r.owner ≠ s.nextAddr := fun r hr =>
    Nat.ne_of_lt (h3 r hr).2
  have hheap : ∀ x ∈ s.heap, x.1 ≠ s.nextAddr := fun x hx =>
    Nat.ne_of_lt (h4 x hx).2
  have hd := destroy_after_construct cb s h1 hregs hheap
  refine ⟨by rw [hd], ?_, ?_⟩
  · rw [hd, construct_fst, SysState.deref]
    have : (s.heap.find? fun x => x.1 == s.nextAddr) = none :=
      List.find?_eq_none.mpr fun x hx => by simpa using hheap x hx
    simp [this]
  · rw [hd, construct_fst, run_deliveries_eq, List.filter_eq_nil_iff]
    intro x hx
    simp only [List.mem_flatMap] at hx
    obtain ⟨e, _, hx⟩ := hx
    obtain ⟨r, hr, hxr⟩ :=
      deliverEvent_owner e.1 e.2 ⟨s.nextAddr + 1, s.heap, s.regs⟩ x hx
    have : r.owner ≠ s.nextAddr := hregs r hr
    simp [hxr, this]

/-- Witness for C3 at a concrete table, state and event batch. -/
theorem destroy_unregisters_and_silences_witness :
    (constructDestroy ⟨10, 20⟩ SysState.init).regs = SysState.init.regs ∧
    (constructDestroy ⟨10, 20⟩ SysState.init).deref
      (steam_rust_register_callbacks ⟨10, 20⟩ SysState.init).1 = none ∧
    (run (deliveries [(.personaStateChange, 5), (.steamShutdown, 7)])
      (constructDestroy ⟨10, 20⟩ SysState.init)).2.filter
      (fun x => x.1 == (steam_rust_register_callbacks ⟨10, 20⟩ SysState.init).1) = [] :=
  destroy_unregisters_and_silences ⟨10, 20⟩ SysState.init
    [(.personaStateChange, 5), (.steamShutdown, 7)] good_init

lemma constructDestroy_regs_length (cb : SteamRustCallbacks) (s : SysState)
    (hpos : 0 < s.nextAddr) :
    (constructDestroy cb s).regs.length = s.regs.length ∧
    (constructDestroy cb s).nextAddr = s.nextAddr + 1 := by
  have hne : s.nextAddr ≠ 0 := Nat.pos_iff_ne_zero.mp hpos
  rw [constructDestroy, construct_fst, steam_rust_unregister_callbacks, if_neg hne]
  have hr1 : Reg.mk s.nextAddr .personaStateChange
      ∈ ((steam_rust_register_callbacks cb s).2).regs := by
    rw [construct_regs]; simp
  have hr2 : Reg.mk s.nextAddr .steamShutdown
      ∈ ((steam_rust_register_callbacks cb s).2).regs.erase
        (Reg.mk s.nextAddr .personaStateChange) := by
    rw [List.mem_erase_of_ne (by simp), construct_regs]; simp
  constructor
  · show ((((steam_rust_register_callbacks cb s).2).regs.erase _).erase _).length = _
    rw [List.length_erase_of_mem hr2, List.length_erase_of_mem hr1, construct_regs]
    simp
  · rfl

/-- C4: a sequence of construct/destroy round trips, each destroy matching
its own construct, leaves the native dispatch mechanism's registration
count at the end exactly what it was at the start, for any number of
bridges and any starting count — no handles are leaked. -/
theorem construct_destroy_seq_preserves_count (cbs : List SteamRustCallbacks)
    (s : SysState) (hpos : 0 < s.nextAddr) :
    (constructDestroySeq cbs s).regs.length = s.regs.length := by
  induction cbs generalizing s with
  | nil => rfl
  | cons cb rest ih =>
    obtain ⟨hlen, hnext⟩ := constructDestroy_regs_length cb s hpos
    have hpos2 : 0 < (constructDestroy cb s).nextAddr := by
      rw [hnext]; exact Nat.succ_pos _
    rw [constructDestroySeq, ih (constructDestroy cb s) hpos2, hlen]

/-- Witness for C4 with three bridges from the initial state. -/
theorem construct_destroy_seq_preserves_count_witness :
    (constructDestroySeq [⟨10, 20⟩, ⟨30, 40⟩, ⟨50, 60⟩] SysState.init).regs.length
      = SysState.init.regs.length :=
  construct_destroy_seq_preserves_count [⟨10, 20⟩, ⟨30, 40⟩, ⟨50, 60⟩]
    SysState.init (by decide)

lemma find?_key_filter_ne (l : List (Ptr × CallbackManager)) (a b : Ptr) (h : a ≠ b) :
    ((l.filter fun x => x.1 != b).find? fun x => x.1 == a)
      = l.find? fun x => x.1 == a := by
  induction l with
  | nil => rfl
  | cons x xs ih =>
    by_cases hxb : x.1 = b
    · have hxa : ¬ (x.1 == a) = true := by
        rw [beq_iff_eq, hxb]
        exact fun he => h he.symm
      rw [List.filter_cons_of_neg (by simp [hxb]), ih]
      exact (List.find?_cons_of_neg xs hxa).symm
    · by_cases hxa : (x.1 == a) = true
      · rw [List.filter_cons_of_pos (by simp [hxb])]
        simp only [List.find?, hxa]
      · have hxa2 : (x.1 == a) = false := by simpa using hxa
        rw [List.filter_cons_of_pos (by simp [hxb])]
        simp only [List.find?, hxa2]
        exact ih

lemma step_nextAddr_le (o : Op) (s : SysState) : s.nextAddr ≤ (step o s).1.nextAddr := by
  cases o with
  | construct cb => exact Nat.le_succ _
  | destroy a =>
    by_cases h : a = 0 <;>
      simp [step, steam_rust_unregister_callbacks, h, freeAt, destructAt, unregisterWith]
  | deliver k p => exact Nat.le_refl _

lemma step_deref_frame (o : Op) (s : SysState) (a : Ptr) (h : a < s.nextAddr) :
    (step o s).1.deref a = s.deref a ∨ (step o s).1.deref a = none := by
  cases o with
  | construct cb =>
    left
    show ((steam_rust_register_callbacks cb s).2).deref a = s.deref a
    rw [SysState.deref, SysState.deref, construct_heap, List.find?_append]
    have hnone : (([(s.nextAddr, (⟨cb⟩ : CallbackManager))].find? fun x => x.1 == a))
        = none := by
      simp [Nat.ne_of_gt h]
    rw [hnone]
    cases s.heap.find? fun x => x.1 == a <;> rfl
  | destroy b =>
    by_cases hb : b = 0
    · left
      simp [step, steam_rust_unregister_callbacks, hb]
    · by_cases hab : a = b
      · right
        simp only [step, steam_rust_unregister_callbacks, if_neg hb, freeAt,
          destructAt, unregisterWith, SysState.deref]
        have : ((s.heap.filter fun x => x.1 != b).find? fun x => x.1 == a) = none := by
          rw [List.find?_eq_none]
          intro x hx
          rw [List.mem_filter] at hx
          have : x.1 ≠ b := bne_iff_ne.mp hx.2
          simp [hab ▸ this]
        simp [this]
      · left
        simp only [step, steam_rust_unregister_callbacks, if_neg hb, freeAt,
          destructAt, unregisterWith, SysState.deref]
        rw [find?_key_filter_ne _ _ _ hab]
  | deliver k p => left; rfl

lemma run_deref_frame (ops : List Op) (s : SysState) (a : Ptr) (m : CallbackManager)
    (hlt : a < s.nextAddr) (hd : s.deref a = some m ∨ s.deref a = none) :
    (run ops s).1.deref a = some m ∨ (run ops s).1.deref a = none := by
  induction ops generalizing s with
  | nil => exact hd
  | cons o rest ih =>
    have h2 : a < (step o s).1.nextAddr := Nat.lt_of_lt_of_le hlt (step_nextAddr_le o s)
    have h3 : (step o s).1.deref a = some m ∨ (step o s).1.deref a = none := by
      rcases step_deref_frame o s a hlt with heq | hnone
      · rw [heq]; exact hd
      · right; exact hnone
    exact ih (step o s).1 h2 h3

lemma deref_after_construct (cb : SteamRustCallbacks) (s : SysState)
    (hfresh : ∀ x ∈ s.heap, x.1 ≠ s.nextAddr) :
    ((steam_rust_register_callbacks cb s).2).deref s.nextAddr = some ⟨cb⟩ := by
  rw [SysState.deref, construct_heap, List.find?_append]
  have hnone : (s.heap.find? fun x => x.1 == s.nextAddr) = none := by
    rw [List.find?_eq_none]
    intro x hx
    simpa using hfresh x hx
  simp [hnone]

/-- C5: the callback table is copied by value into the bridge at
construction — immediately afterward the bridge's stored table is exactly
the one supplied — and no later operation of any kind ever mutates it: for
every subsequent operation sequence, the stored table is still exactly the
original (or the bridge has been destroyed and stores nothing at all). -/
theorem table_copied_never_mutated (cb : SteamRustCallbacks) (s : SysState) (ops : List Op)
    (hfresh : ∀ x ∈ s.heap, x.1 ≠ s.nextAddr) :
    (steam_rust_register_callbacks cb s).2.deref (steam_rust_register_callbacks cb s).1
      = some ⟨cb⟩ ∧
    ((run ops (steam_rust_register_callbacks cb s).2).1.deref
        (steam_rust_register_callbacks cb s).1 = some ⟨cb⟩ ∨
     (run ops (steam_rust_register_callbacks cb s).2).1.deref
        (steam_rust_register_callbacks cb s).1 = none) := by
  have hd := deref_after_construct cb s hfresh
  have hlt : s.nextAddr < ((steam_rust_register_callbacks cb s).2).nextAddr := by
    rw [construct_nextAddr]; exact Nat.lt_succ_self _
  exact ⟨hd, run_deref_frame ops _ s.nextAddr ⟨cb⟩ hlt (Or.inl hd)⟩

/-- Witness for C5 at a concrete table, state and operation sequence. -/
theorem table_copied_never_mutated_witness :
    (steam_rust_register_callbacks ⟨10, 20⟩ SysState.init).2.deref
      (steam_rust_register_callbacks ⟨10, 20⟩ SysState.init).1 = some ⟨⟨10, 20⟩⟩ ∧
    ((run [Op.deliver .personaStateChange 5, Op.construct ⟨30, 40⟩]
        (steam_rust_register_callbacks ⟨10, 20⟩ SysState.init).2).1.deref
        (steam_rust_register_callbacks ⟨10, 20⟩ SysState.init).1 = some ⟨⟨10, 20⟩⟩ ∨
     (run [Op.deliver .personaStateChange 5, Op.construct ⟨30, 40⟩]
        (steam_rust_register_callbacks ⟨10, 20⟩ SysState.init).2).1.deref
        (steam_rust_register_callbacks ⟨10, 20⟩ SysState.init).1 = none) :=
  table_copied_never_mutated ⟨10, 20⟩ SysState.init
    [Op.deliver .personaStateChange 5, Op.construct ⟨30, 40⟩] (by decide)

lemma step_good (o : Op) (s : SysState) (h : s.good) : (step o s).1.good := by
  obtain ⟨h1, h2, h3, h4, h5⟩ := h
  cases o with
  | construct cb =>
    have e : (step (Op.construct cb) s).1
        = ⟨s.nextAddr + 1, s.heap ++ [(s.nextAddr, ⟨cb⟩)],
           s.regs ++ [Reg.mk s.nextAddr .personaStateChange,
                      Reg.mk s.nextAddr .steamShutdown]⟩ := by
      show (steam_rust_register_callbacks cb s).2 = _
      simp [steam_rust_register_callbacks, constructAt, registerWith]
    rw [e]
    refine ⟨Nat.succ_pos _, ?_, ?_, ?_, ?_⟩
    · rw [List.nodup_append]
      refine ⟨h2, by simp, ?_⟩
      intro x hx hmem
      simp only [List.mem_cons, List.mem_singleton] at hmem
      rcases hmem with rfl | rfl | hmem
      · exact Nat.lt_irrefl _ (h3 _ hx).2
      · exact Nat.lt_irrefl _ (h3 _ hx).2
      · exact List.not_mem_nil _ hmem
    · intro r hr
      rcases List.mem_append.mp hr with hmem | hmem
      · exact ⟨(h3 r hmem).1, Nat.lt_succ_of_lt (h3 r hmem).2⟩
      · simp only [List.mem_cons, List.mem_singleton] at hmem
        rcases hmem with rfl | rfl | hmem
        · exact ⟨h1, Nat.lt_succ_self _⟩
        · exact ⟨h1, Nat.lt_succ_self _⟩
        · exact absurd hmem (List.not_mem_nil _)
    · intro x hx
      rcases List.mem_append.mp hx with hmem | hmem
      · exact ⟨(h4 x hmem).1, Nat.lt_succ_of_lt (h4 x hmem).2⟩
      · simp only [List.mem_singleton] at hmem
        rw [hmem]
        exact ⟨h1, Nat.lt_succ_self _⟩
    · intro r hr
      rcases List.mem_append.mp hr with hmem | hmem
      · obtain ⟨hp, hs⟩ := h5 r hmem
        exact ⟨List.mem_append_left _ hp, List.mem_append_left _ hs⟩
      · have ho : r.owner = s.nextAddr := by
          simp only [List.mem_cons, List.mem_singleton] at hmem
          rcases hmem with rfl | rfl | hmem
          · rfl
          · rfl
          · exact absurd hmem (List.not_mem_nil _)
        rw [ho]
        exact ⟨List.mem_append_right _ (by simp), List.mem_append_right _ (by simp)⟩
  | destroy b =>
    by_cases hb : b = 0
    · have e : (step (Op.destroy b) s).1 = s := by
        simp [step, steam_rust_unregister_callbacks, hb]
      rw [e]
      exact ⟨h1, h2, h3, h4, h5⟩
    · have e : (step (Op.destroy b) s).1
          = ⟨s.nextAddr, s.heap.filter fun x => x.1 != b,
             (s.regs.erase (Reg.mk b .personaStateChange)).erase
               (Reg.mk b .steamShutdown)⟩ := by
        simp [step, steam_rust_unregister_callbacks, hb, freeAt, destructAt,
          unregisterWith]
      rw [e]
      have d1 : (s.regs.erase (Reg.mk b .personaStateChange)).Nodup :=
        List.Nodup.erase _ h2
      refine ⟨h1, List.Nodup.erase _ d1, ?_, ?_, ?_⟩
      · intro r hr
        exact h3 r (List.mem_of_mem_erase (List.mem_of_mem_erase hr))
      · intro x hx
        exact h4 x (List.mem_of_mem_filter hx)
      · intro r hr
        have hr1 : r ∈ s.regs.erase (Reg.mk b .personaStateChange) :=
          List.mem_of_mem_erase hr
        have hrs : r ∈ s.regs := List.mem_of_mem_erase hr1
        have hno : r.owner ≠ b := by
          intro hrb
          cases hk : r.kind with
          | personaStateChange =>
            have hre : r = Reg.mk b .personaStateChange := by
              cases r
              simp_all
            rw [hre] at hr1
            exact (h2.mem_erase_iff.mp hr1).1 rfl
          | steamShutdown =>
            have hre : r = Reg.mk b .steamShutdown := by
              cases r
              simp_all
            rw [hre] at hr
            exact (d1.mem_erase_iff.mp hr).1 rfl
        obtain ⟨hp, hs⟩ := h5 r hrs
        constructor
        · rw [d1.mem_erase_iff]
          refine ⟨by simp [hno], ?_⟩
          rw [h2.mem_erase_iff]
          exact ⟨by simp [hno], hp⟩
        · rw [d1.mem_erase_iff]
          refine ⟨by simp [hno], ?_⟩
          rw [h2.mem_erase_iff]
          exact ⟨by simp [hno], hs⟩
  | deliver k p => exact ⟨h1, h2, h3, h4, h5⟩

lemma reachable_good (s : SysState) (h : Reachable s) : s.good := by
  induction h with
  | init => exact good_init
  | next o hs ih => exact step_good o _ ih

/-- C6: the bridge is a two-state machine. In every reachable system
state, every bridge address is either fully Registered (both handles held
by the native dispatch mechanism) or fully Unregistered (neither held) —
never a partial mixture. Construction takes a fresh bridge from
Unregistered to Registered; destruction takes it to Unregistered, and both
handles are already unregistered the moment the destructor body finishes,
before the memory release that completes destruction; event delivery
changes no state at all. -/
theorem bridge_two_state_machine (s : SysState) (a : Ptr) (cb : SteamRustCallbacks)
    (k : EventKind) (p : Ptr) (hr : Reachable s) :
    (bridgeRegistered s a ∨ bridgeUnregistered s a) ∧
    (bridgeUnregistered s (steam_rust_register_callbacks cb s).1 ∧
     bridgeRegistered (steam_rust_register_callbacks cb s).2
       (steam_rust_register_callbacks cb s).1) ∧
    (bridgeUnregistered (steam_rust_unregister_callbacks a s) a ∧
     bridgeUnregistered (destructAt a s) a) ∧
    (step (Op.deliver k p) s).1 = s := by
  obtain ⟨h1, h2, h3, h4, h5⟩ := reachable_good s hr
  have d1 : (s.regs.erase (Reg.mk a .personaStateChange)).Nodup :=
    List.Nodup.erase _ h2
  have edr : (destructAt a s).regs
      = (s.regs.erase (Reg.mk a .personaStateChange)).erase
        (Reg.mk a .steamShutdown) := rfl
  refine ⟨?_, ⟨?_, ?_⟩, ⟨?_, ?_⟩, rfl⟩
  · by_cases hp : Reg.mk a .personaStateChange ∈ s.regs
    · exact Or.inl ⟨hp, (h5 _ hp).2⟩
    · refine Or.inr ⟨hp, fun hs => ?_⟩
      exact hp (h5 _ hs).1
  · refine ⟨fun hmem => ?_, fun hmem => ?_⟩ <;>
      exact Nat.lt_irrefl _ (h3 _ hmem).2
  · refine ⟨?_, ?_⟩ <;>
      (rw [construct_fst, construct_regs]; simp)
  · by_cases ha : a = 0
    · subst ha
      refine ⟨fun hmem => ?_, fun hmem => ?_⟩ <;>
        exact Nat.lt_irrefl 0 (h3 _ hmem).1
    · have e : (steam_rust_unregister_callbacks a s).regs
          = (s.regs.erase (Reg.mk a .personaStateChange)).erase
            (Reg.mk a .steamShutdown) := by
        simp [steam_rust_unregister_callbacks, ha, freeAt, destructAt, unregisterWith]
      refine ⟨fun hmem => ?_, fun hmem => ?_⟩
      · rw [e] at hmem
        exact (h2.mem_erase_iff.mp (List.mem_of_mem_erase hmem)).1 rfl
      · rw [e] at hmem
        exact (d1.mem_erase_iff.mp hmem).1 rfl
  · refine ⟨fun hmem => ?_, fun hmem => ?_⟩
    · rw [edr] at hmem
      exact (h2.mem_erase_iff.mp (List.mem_of_mem_erase hmem)).1 rfl
    · rw [edr] at hmem
      exact (d1.mem_erase_iff.mp hmem).1 rfl

/-- Witness for C6 at the initial state. -/
theorem bridge_two_state_machine_witness :
    (bridgeRegistered SysState.init 1 ∨ bridgeUnregistered SysState.init 1) ∧
    (bridgeUnregistered SysState.init
        (steam_rust_register_callbacks ⟨10, 20⟩ SysState.init).1 ∧
     bridgeRegistered (steam_rust_register_callbacks ⟨10, 20⟩ SysState.init).2
        (steam_rust_register_callbacks ⟨10, 20⟩ SysState.init).1) ∧
    (bridgeUnregistered (steam_rust_unregister_callbacks 1 SysState.init) 1 ∧
     bridgeUnregistered (destructAt 1 SysState.init) 1) ∧
    (step (Op.deliver .personaStateChange 5) SysState.init).1 = SysState.init :=
  bridge_two_state_machine SysState.init 1 ⟨10, 20⟩ .personaStateChange 5 Reachable.init
